import Mathlib

/-!
Shallow embedding of the core of the `rmenu` repository:
* `rmenu-plugin/src/lib.rs` — the protocol types `Method`, `Action`, `Entry`,
  `Options`, `Message` and their serde wire form;
* `rmenu/src/config.rs` — `Keybind` parsing, `CacheSetting` parsing, the
  `Config` data model and `Config::update`;
* `rmenu/src/cache.rs` — `read_cache` / `write_cache` over an explicit
  filesystem environment.

Machine integers (`usize`) are modelled as `Nat` (no arithmetic in the
embedded code can overflow a 64-bit word on the inputs the configuration
deals in, and the width of `usize` is platform-defined).  `f64` values are
only ever carried and compared, never computed with, so they are modelled
as `Rat`.
-/

namespace Rmenu

/-- A JSON-like wire value, the target of serde serialization as used by the
plugin protocol (`serde` derive on `Entry`, `Options`, `Message`).  Objects
are ordered association lists of field name / value pairs. -/
inductive J where
  | null : J
  | s : String → J
  | n : Nat → J
  | q : Rat → J
  | b : Bool → J
  | arr : List J → J
  | obj : List (String × J) → J
  deriving Repr

/-- A sparse object body: fields whose value is `none` are omitted entirely,
modelling `#[serde(skip_serializing_if = "Option::is_none")]`. -/
def sparse : List (String × Option J) → List (String × J)
  | [] => []
  | (_, none) :: rest => sparse rest
  | (nm, some j) :: rest => (nm, j) :: sparse rest

theorem sparse_lookup_not_mem (n : String) :
    ∀ (l : List (String × Option J)), n ∉ l.map Prod.fst →
      (sparse l).lookup n = none := by
  intro l
  induction l with
  | nil => intro _; rfl
  | cons p rest ih =>
    intro h
    simp only [List.map_cons, List.mem_cons] at h
    push_neg at h
    obtain ⟨hne, hrest⟩ := h
    obtain ⟨m, v⟩ := p
    cases v with
    | none => exact ih hrest
    | some j =>
      simp only [sparse, List.lookup]
      have : (n == m) = false := by
        simp only [beq_eq_false_iff_ne, ne_eq]
        exact hne
      rw [this]
      exact ih hrest

theorem sparse_lookup (n : String) :
    ∀ (l : List (String × Option J)), (l.map Prod.fst).Nodup →
      (sparse l).lookup n = (l.lookup n).bind id := by
  intro l
  induction l with
  | nil => intro _; rfl
  | cons p rest ih =>
    intro hnd
    obtain ⟨m, v⟩ := p
    simp only [List.map_cons, List.nodup_cons] at hnd
    obtain ⟨hm, hrest⟩ := hnd
    by_cases hnm : n = m
    · subst hnm
      cases v with
      | none =>
        simp only [sparse, List.lookup, beq_self_eq_true]
        rw [sparse_lookup_not_mem n rest hm]
        rfl
      | some j =>
        simp only [sparse, List.lookup, beq_self_eq_true]
        rfl
    · have hbeq : (n == m) = false := by
        simp only [beq_eq_false_iff_ne, ne_eq]
        exact hnm
      cases v with
      | none =>
        simp only [sparse, List.lookup, hbeq]
        exact ih hrest
      | some j =>
        simp only [sparse, List.lookup, hbeq]
        exact ih hrest

/-!
## Protocol types (`rmenu-plugin/src/lib.rs`)
-/

/-- `Method` — methods allowed to execute actions on selection
(`rmenu-plugin/src/lib.rs`, enum with `#[serde(rename_all = "lowercase")]`). -/
inductive Method where
  | terminal : String → Method
  | run : String → Method
  | echo : String → Method
  deriving Repr, DecidableEq

/-- `Action` — an entry action `{name, exec, comment}`. -/
structure Action where
  name : String
  exec : Method
  comment : Option String
  deriving Repr, DecidableEq

/-- `Entry` — one menu entry, serialized with
`#[serde(tag = "type", rename = "entry")]`. -/
structure Entry where
  name : String
  actions : List Action
  comment : Option String
  icon : Option String
  icon_alt : Option String
  deriving Repr, DecidableEq

/-- `Options` — the sparse override bag a plugin may emit, serialized with
`#[serde(default, tag = "type", rename = "options")]` and every field marked
`skip_serializing_if = "Option::is_none"`.

The fields `css`, `page_size`, `page_load`, `jump_dist`, `key_jump_next`,
`key_jump_prev` and `transparent` are read by `Config::update` in
`rmenu/src/config.rs` but are missing from the snapshot of
`rmenu-plugin/src/lib.rs`.  Modelled from the spec: the spec's §3 `Options`
("a sparse override bag: every field optional, covering theme, search
placeholder/restriction/min/max length, six-plus keybind groups, window
title/decoration/fullscreen/size") and the §8 overlay example
(`Options{page_size: Some(75), ..}`), with the same optional,
skipped-when-absent treatment as all other fields. -/
structure Options where
  theme : Option String := none
  placeholder : Option String := none
  search_restrict : Option String := none
  search_min_length : Option Nat := none
  search_max_length : Option Nat := none
  key_exec : Option (List String) := none
  key_exit : Option (List String) := none
  key_move_next : Option (List String) := none
  key_move_prev : Option (List String) := none
  key_open_menu : Option (List String) := none
  key_close_menu : Option (List String) := none
  key_jump_next : Option (List String) := none
  key_jump_prev : Option (List String) := none
  title : Option String := none
  decorate : Option Bool := none
  fullscreen : Option Bool := none
  transparent : Option Bool := none
  window_width : Option Rat := none
  window_height : Option Rat := none
  css : Option String := none
  page_size : Option Nat := none
  page_load : Option Rat := none
  jump_dist : Option Nat := none
  deriving Repr, DecidableEq

/-- The all-absent `Options` value (Rust `Options::default()`). -/
def Options.empty : Options := {}

/-- `Message` — the tagged union a plugin's output stream consists of
(`#[serde(tag = "type", rename_all = "lowercase")]`). -/
inductive Message where
  | entry : Entry → Message
  | options : Options → Message
  deriving Repr, DecidableEq

/-!
## Wire codec for the protocol types

Model of the serde-derived serialization of `Method`, `Action`, `Entry`,
`Options` and `Message` (`rmenu-plugin/src/lib.rs`).  An `Option` field
without a `skip_serializing_if` attribute (those of `Action` and `Entry`)
serializes as `null` when absent; the `Options` fields are skipped when
absent and, thanks to `#[serde(default)]`, a missing field deserializes to
`none`.
-/

/-- Encode a `Method`: an externally tagged enum with
`rename_all = "lowercase"`, e.g. `Terminal(c)` ↦ `{"terminal": c}`. -/
def encodeMethod : Method → J
  | .terminal c => .obj [("terminal", .s c)]
  | .run c => .obj [("run", .s c)]
  | .echo c => .obj [("echo", .s c)]

/-- Decode a `Method` from its wire form. -/
def decodeMethod : J → Option Method
  | .obj [("terminal", .s c)] => some (.terminal c)
  | .obj [("run", .s c)] => some (.run c)
  | .obj [("echo", .s c)] => some (.echo c)
  | _ => none

/-- Encode a plain (non-skipped) `Option<String>` field: `None` ↦ `null`. -/
def encodeNullableStr : Option String → J
  | none => .null
  | some t => .s t

/-- Decode a plain `Option<String>` field. -/
def decodeNullableStr : J → Option (Option String)
  | .null => some none
  | .s t => some (some t)
  | _ => none

/-- Encode an `Action` (plain serde struct, all fields present). -/
def encodeAction (a : Action) : J :=
  .obj [("name", .s a.name), ("exec", encodeMethod a.exec),
        ("comment", encodeNullableStr a.comment)]

/-- Decode an `Action`; every field is required (no serde `default`). -/
def decodeAction : J → Option Action
  | .obj fs => do
    let nameJ ← fs.lookup "name"
    let name ← match nameJ with | .s t => some t | _ => none
    let execJ ← fs.lookup "exec"
    let exec ← decodeMethod execJ
    let commentJ ← fs.lookup "comment"
    let comment ← decodeNullableStr commentJ
    pure ⟨name, exec, comment⟩
  | _ => none

/-- Encode an `Entry`: internally tagged with `tag = "type"`,
`rename = "entry"`, so the object carries `"type": "entry"` alongside the
struct fields; the `Option` fields have no skip attribute and serialize as
`null` when absent. -/
def encodeEntry (e : Entry) : J :=
  .obj [("type", .s "entry"),
        ("name", .s e.name),
        ("actions", .arr (e.actions.map encodeAction)),
        ("comment", encodeNullableStr e.comment),
        ("icon", encodeNullableStr e.icon),
        ("icon_alt", encodeNullableStr e.icon_alt)]

/-- Decode an `Entry`; the `"type"` tag must equal `"entry"` and every
field is required. -/
def decodeEntry : J → Option Entry
  | .obj fs => do
    let tag ← fs.lookup "type"
    let _ ← match tag with | .s "entry" => some () | _ => none
    let nameJ ← fs.lookup "name"
    let name ← match nameJ with | .s t => some t | _ => none
    let actsJ ← fs.lookup "actions"
    let acts ← match actsJ with | .arr js => some js | _ => none
    let actions ← acts.mapM decodeAction
    let commentJ ← fs.lookup "comment"
    let comment ← decodeNullableStr commentJ
    let iconJ ← fs.lookup "icon"
    let icon ← decodeNullableStr iconJ
    let iconAltJ ← fs.lookup "icon_alt"
    let icon_alt ← decodeNullableStr iconAltJ
    pure ⟨name, actions, comment, icon, icon_alt⟩
  | _ => none

/-- Encode a list of raw keybind strings (`Vec<String>`). -/
def strArr (l : List String) : J := .arr (l.map J.s)

/-- First half of the sparse field list of an `Options` value (split in two
only to keep elaboration of the long list literal cheap). -/
def optionsFieldsA (o : Options) : List (String × Option J) :=
  [("theme", o.theme.map J.s),
   ("placeholder", o.placeholder.map J.s),
   ("search_restrict", o.search_restrict.map J.s),
   ("search_min_length", o.search_min_length.map J.n),
   ("search_max_length", o.search_max_length.map J.n),
   ("key_exec", o.key_exec.map strArr),
   ("key_exit", o.key_exit.map strArr),
   ("key_move_next", o.key_move_next.map strArr),
   ("key_move_prev", o.key_move_prev.map strArr),
   ("key_open_menu", o.key_open_menu.map strArr),
   ("key_close_menu", o.key_close_menu.map strArr),
   ("key_jump_next", o.key_jump_next.map strArr),
   ("key_jump_prev", o.key_jump_prev.map strArr)]

/-- Second half of the sparse field list of an `Options` value. -/
def optionsFieldsB (o : Options) : List (String × Option J) :=
  [("title", o.title.map J.s),
   ("decorate", o.decorate.map J.b),
   ("fullscreen", o.fullscreen.map J.b),
   ("transparent", o.transparent.map J.b),
   ("window_width", o.window_width.map J.q),
   ("window_height", o.window_height.map J.q),
   ("css", o.css.map J.s),
   ("page_size", o.page_size.map J.n),
   ("page_load", o.page_load.map J.q),
   ("jump_dist", o.jump_dist.map J.n)]

/-- The sparse field list of an `Options` value, in declaration order;
each absent field is omitted from the wire object. -/
def optionsFields (o : Options) : List (String × Option J) :=
  optionsFieldsA o ++ optionsFieldsB o

/-- Encode an `Options`: tag `"type": "options"` plus the sparse fields. -/
def encodeOptions (o : Options) : J :=
  .obj (("type", .s "options") :: sparse (optionsFields o))

/-- Decode an optional string field of `Options` (missing ⇒ `none` via
serde `default`; present `null` also deserializes to `none`). -/
def decOptStr : Option J → Option (Option String)
  | none => some none
  | some .null => some none
  | some (.s t) => some (some t)
  | some _ => none

/-- Decode an optional `usize` field of `Options`. -/
def decOptNat : Option J → Option (Option Nat)
  | none => some none
  | some .null => some none
  | some (.n k) => some (some k)
  | some _ => none

/-- Decode an optional `f64` field of `Options`. -/
def decOptRat : Option J → Option (Option Rat)
  | none => some none
  | some .null => some none
  | some (.q v) => some (some v)
  | some _ => none

/-- Decode an optional `bool` field of `Options`. -/
def decOptBool : Option J → Option (Option Bool)
  | none => some none
  | some .null => some none
  | some (.b v) => some (some v)
  | some _ => none

/-- Decode a wire value as a `String` (element of a `Vec<String>`). -/
def asStr : J → Option String
  | .s t => some t
  | _ => none

/-- Decode an optional `Vec<String>` field of `Options`. -/
def decOptStrList : Option J → Option (Option (List String))
  | none => some none
  | some .null => some none
  | some (.arr js) => (js.mapM asStr).map some
  | some _ => none

/-- Decode the first half of the `Options` fields into `o` (split in two
only to keep elaboration cheap); a missing field falls back to `none`
(`#[serde(default)]`). -/
def decodeOptionsA (fs : List (String × J)) (o : Options) : Option Options := do
  let theme ← decOptStr (fs.lookup "theme")
  let placeholder ← decOptStr (fs.lookup "placeholder")
  let search_restrict ← decOptStr (fs.lookup "search_restrict")
  let search_min_length ← decOptNat (fs.lookup "search_min_length")
  let search_max_length ← decOptNat (fs.lookup "search_max_length")
  let key_exec ← decOptStrList (fs.lookup "key_exec")
  let key_exit ← decOptStrList (fs.lookup "key_exit")
  let key_move_next ← decOptStrList (fs.lookup "key_move_next")
  let key_move_prev ← decOptStrList (fs.lookup "key_move_prev")
  let key_open_menu ← decOptStrList (fs.lookup "key_open_menu")
  let key_close_menu ← decOptStrList (fs.lookup "key_close_menu")
  let key_jump_next ← decOptStrList (fs.lookup "key_jump_next")
  let key_jump_prev ← decOptStrList (fs.lookup "key_jump_prev")
  pure { o with theme, placeholder, search_restrict, search_min_length,
                search_max_length, key_exec, key_exit, key_move_next,
                key_move_prev, key_open_menu, key_close_menu,
                key_jump_next, key_jump_prev }

/-- Decode the second half of the `Options` fields into `o`. -/
def decodeOptionsB (fs : List (String × J)) (o : Options) : Option Options := do
  let title ← decOptStr (fs.lookup "title")
  let decorate ← decOptBool (fs.lookup "decorate")
  let fullscreen ← decOptBool (fs.lookup "fullscreen")
  let transparent ← decOptBool (fs.lookup "transparent")
  let window_width ← decOptRat (fs.lookup "window_width")
  let window_height ← decOptRat (fs.lookup "window_height")
  let css ← decOptStr (fs.lookup "css")
  let page_size ← decOptNat (fs.lookup "page_size")
  let page_load ← decOptRat (fs.lookup "page_load")
  let jump_dist ← decOptNat (fs.lookup "jump_dist")
  pure { o with title, decorate, fullscreen, transparent, window_width,
                window_height, css, page_size, page_load, jump_dist }

/-- Decode an `Options`; the `"type"` tag must equal `"options"`, every
other field falls back to `none` when missing (`#[serde(default)]`). -/
def decodeOptions : J → Option Options
  | .obj fs =>
    match fs.lookup "type" with
    | some (.s "options") =>
      (decodeOptionsA fs Options.empty).bind (decodeOptionsB fs)
    | _ => none
  | _ => none

/-- Encode a `Message`: internally tagged with the same `"type"` tag its
payload structs already carry, so `Message::Entry(e)` serializes exactly as
`e` does and `Message::Options(o)` exactly as `o` does. -/
def encodeMessage : Message → J
  | .entry e => encodeEntry e
  | .options o => encodeOptions o

/-- Decode a `Message` by dispatching on the `"type"` tag. -/
def decodeMessage (j : J) : Option Message :=
  match j with
  | .obj fs =>
    match fs.lookup "type" with
    | some (.s "entry") => (decodeEntry j).map .entry
    | some (.s "options") => (decodeOptions j).map .options
    | _ => none
  | _ => none

/-!
## Configuration data model (`rmenu/src/config.rs`)
-/

/-- The modifier-key set (`keyboard_types::Modifiers` restricted to the
four flags this program ever constructs: `ALT`, `CONTROL`, `SHIFT`,
`SUPER`); a bitflags set modelled as four booleans. -/
structure Modifiers where
  alt : Bool := false
  control : Bool := false
  shift : Bool := false
  superKey : Bool := false
  deriving Repr, DecidableEq

/-- The empty modifier set (`Modifiers::empty()`). -/
def Modifiers.empty : Modifiers := {}

/-- Bitwise union of modifier sets (`m1 | m2`). -/
def Modifiers.union (m1 m2 : Modifiers) : Modifiers :=
  ⟨m1.alt || m2.alt, m1.control || m2.control, m1.shift || m2.shift,
   m1.superKey || m2.superKey⟩

/-- Physical-key codes (`keyboard_types::Code`).  Modelled from the spec:
the crate is an external dependency, so the vocabulary is restricted to the
key-code identifiers the spec and the repository's defaults name
(`Enter`, `Escape`, `ArrowUp`, `ArrowDown`, `PageUp`, `PageDown`, and the
letter keys `A`/`B` of the spec's keybind examples); per the spec a key
token "converted to the key-code naming convention by capitalizing word
boundaries" resolves iff it names one of these. -/
inductive Code where
  | A | B | Enter | Escape | ArrowUp | ArrowDown | PageUp | PageDown
  deriving Repr, DecidableEq

/-- `Code::from_str` on an already Pascal-cased token: the exact-name
table lookup of the key-code vocabulary. -/
def Code.from_str : String → Option Code
  | "A" => some .A
  | "B" => some .B
  | "Enter" => some .Enter
  | "Escape" => some .Escape
  | "ArrowUp" => some .ArrowUp
  | "ArrowDown" => some .ArrowDown
  | "PageUp" => some .PageUp
  | "PageDown" => some .PageDown
  | _ => none

/-- Rust's `str::split("+")` over the character list: splitting at every
occurrence of `+`; leading, trailing or adjacent separators yield empty
tokens, and the empty string yields one empty token. -/
def splitPlusAux : List Char → List Char → List String
  | [], cur => [String.mk cur.reverse]
  | c :: rest, cur =>
    if c = '+' then String.mk cur.reverse :: splitPlusAux rest []
    else splitPlusAux rest (c :: cur)

/-- The token list of a keybind string (`s.split("+")`). -/
def splitPlus (s : String) : List String := splitPlusAux s.data []

/-- Rust's `str::to_lowercase`, restricted to ASCII (every recognized
modifier name is ASCII). -/
def asciiLower (s : String) : String := String.mk (s.data.map Char.toLower)

/-- `mod_from_str` — parse supported modifiers from string
(case-insensitive via `to_lowercase`). -/
def mod_from_str (s : String) : Option Modifiers :=
  match asciiLower s with
  | "alt" => some { Modifiers.empty with alt := true }
  | "ctrl" => some { Modifiers.empty with control := true }
  | "shift" => some { Modifiers.empty with shift := true }
  | "super" => some { Modifiers.empty with superKey := true }
  | _ => none

/-- `Keybind` — a single GUI keybind `{mods, key}`. -/
structure Keybind where
  mods : Modifiers
  key : Code
  deriving Repr, DecidableEq

/-- `Keybind::new` — a bare key with no modifiers. -/
def Keybind.new (key : Code) : Keybind := ⟨Modifiers.empty, key⟩

/-- Word splitting of `heck::AsPascalCase`, modelled from the spec
("capitalizing word boundaries"): words break at non-alphanumeric
characters and at a lowercase→uppercase transition. -/
def splitWordsGo : List Char → List Char → List (List Char) → List (List Char)
  | [], cur, acc => (cur.reverse :: acc)
  | c :: rest, cur, acc =>
    if ¬ c.isAlphanum then splitWordsGo rest [] (cur.reverse :: acc)
    else
      match cur with
      | p :: _ =>
        if c.isUpper && p.isLower then splitWordsGo rest [c] (cur.reverse :: acc)
        else splitWordsGo rest (c :: cur) acc
      | [] => splitWordsGo rest [c] acc

/-- `format!("{}", AsPascalCase(item))`: split into words, then for each
word uppercase the first character and lowercase the rest. -/
def pascalCase (s : String) : String :=
  let words := ((splitWordsGo s.data [] []).reverse.filter (· ≠ []))
  let cap : List Char → List Char
    | [] => []
    | c :: rest => c.toUpper :: rest.map Char.toLower
  String.mk (words.map cap).flatten

/-- One pass of the token loop of `Keybind::from_str`: each token is first
tried as a key code (on its Pascal-cased form), then as a modifier; an
unresolvable token aborts with the offending token in the error. -/
def classify : List String → Except String (List Modifiers × List Code)
  | [] => .ok ([], [])
  | item :: rest =>
    match Code.from_str (pascalCase item) with
    | some key =>
      match classify rest with
      | .ok (ms, ks) => .ok (ms, key :: ks)
      | .error e => .error e
    | none =>
      match mod_from_str item with
      | some keymod =>
        match classify rest with
        | .ok (ms, ks) => .ok (keymod :: ms, ks)
        | .error e => .error e
      | none => .error ("invalid key/modifier: " ++ item)

/-- `Keybind::from_str` — split on `+`, classify every token, fold the
modifiers by union, and require exactly one key token. -/
def Keybind.from_str (s : String) : Except String Keybind :=
  match classify (splitPlus s) with
  | .error e => .error e
  | .ok (mods, keys) =>
    let kmod := mods.foldl Modifiers.union Modifiers.empty
    match keys with
    | [] => .error "no keys specified"
    | [key] => .ok ⟨kmod, key⟩
    | _ => .error ("too many keys: " ++ toString (repr keys))

/-- `KeyConfig` — the eight named keybind slots. -/
structure KeyConfig where
  exec : List Keybind
  exit : List Keybind
  move_next : List Keybind
  move_prev : List Keybind
  open_menu : List Keybind
  close_menu : List Keybind
  jump_next : List Keybind
  jump_prev : List Keybind
  deriving Repr, DecidableEq

/-- `KeyConfig::default()` — pre-populates four of the eight slots (the
source binds `move_next` to `ArrowUp` and `move_prev` to `ArrowDown`). -/
def KeyConfig.default : KeyConfig :=
  { exec := [Keybind.new .Enter]
    exit := [Keybind.new .Escape]
    move_next := [Keybind.new .ArrowUp]
    move_prev := [Keybind.new .ArrowDown]
    open_menu := []
    close_menu := []
    jump_next := [Keybind.new .PageDown]
    jump_prev := [Keybind.new .PageUp] }

/-- `LogicalSize<f64>` (dioxus/tao), with `f64` modelled as `Rat`. -/
structure LogicalSize where
  width : Rat
  height : Rat
  deriving Repr, DecidableEq

/-- `LogicalPosition<f64>`. -/
structure LogicalPosition where
  x : Rat
  y : Rat
  deriving Repr, DecidableEq

/-- `WindowConfig` — GUI desktop window settings. -/
structure WindowConfig where
  title : String
  size : LogicalSize
  position : LogicalPosition
  focus : Bool
  decorate : Bool
  transparent : Bool
  always_top : Bool
  fullscreen : Option Bool
  dark_mode : Option Bool
  deriving Repr, DecidableEq

/-- `WindowConfig::default()`. -/
def WindowConfig.default : WindowConfig :=
  { title := "RMenu - App Launcher"
    size := ⟨700, 400⟩
    position := ⟨100, 100⟩
    focus := true
    decorate := false
    transparent := false
    always_top := true
    fullscreen := none
    dark_mode := none }

/-- `CacheSetting` — per-plugin cache policy. -/
inductive CacheSetting where
  | NoCache
  | Never
  | OnLogin
  | AfterSeconds (secs : Nat)
  deriving Repr, DecidableEq

/-- Rust's `str::parse::<usize>()`: an optional leading `+` sign followed
by one or more ASCII decimal digits; anything else (empty string, `-`,
non-digits) fails, and a digit string whose value exceeds `usize::MAX`
fails with overflow.  `usize` is modelled as a 64-bit word (the desktop
targets of this application), so values of `2^64` or more are rejected;
Rust's incremental checked arithmetic overflows at some prefix exactly
when the exact final value exceeds the bound, so the final-value check is
equivalent. -/
def parseUsize (s : String) : Option Nat :=
  let ds := match s.data with
    | '+' :: rest => rest
    | l => l
  if ds = [] then none
  else if ds.all Char.isDigit then
    let v := ds.foldl (fun a c => a * 10 + (c.toNat - 48)) 0
    if v < 2 ^ 64 then some v else none
  else none

/-- `CacheSetting::from_str`: the literal policy names, else a `usize`
count of seconds. -/
def CacheSetting.from_str (s : String) : Except String CacheSetting :=
  match s with
  | "never" => .ok .Never
  | "false" => .ok .NoCache
  | "disable" => .ok .NoCache
  | "disabled" => .ok .NoCache
  | "true" => .ok .OnLogin
  | "login" => .ok .OnLogin
  | "onlogin" => .ok .OnLogin
  | _ =>
    match parseUsize s with
    | some secs => .ok (.AfterSeconds secs)
    | none => .error ("Invalid Cache Setting: " ++ toString (repr s))

/-- `PluginConfig` — one data-source plugin's settings. -/
structure PluginConfig where
  exec : List String
  cache : CacheSetting := .NoCache
  placeholder : Option String := none
  options : Option Options := none
  deriving Repr, DecidableEq

/-- `SearchConfig`. -/
structure SearchConfig where
  restrict : Option String
  min_length : Option Nat
  max_length : Option Nat
  placeholder : Option String
  use_regex : Bool
  ignore_case : Bool
  deriving Repr, DecidableEq

/-- `SearchConfig::default()`. -/
def SearchConfig.default : SearchConfig :=
  { restrict := none
    min_length := none
    max_length := none
    placeholder := none
    use_regex := true
    ignore_case := true }

/-- `Config` — the global application configuration.  The ordered-by-name
`BTreeMap<String, PluginConfig>` is modelled as an association list. -/
structure Config where
  page_size : Nat
  page_load : Rat
  jump_dist : Nat
  use_icons : Bool
  use_comments : Bool
  search : SearchConfig
  plugins : List (String × PluginConfig)
  keybinds : KeyConfig
  window : WindowConfig
  css : Option String
  terminal : Option String
  deriving Repr, DecidableEq

/-- `Config::default()`. -/
def Config.default : Config :=
  { page_size := 50
    page_load := (8 : Rat) / 10
    jump_dist := 5
    use_icons := true
    use_comments := true
    search := SearchConfig.default
    plugins := []
    keybinds := KeyConfig.default
    window := WindowConfig.default
    css := none
    terminal := none }

/-!
## `Config::update` (`rmenu/src/config.rs`)

`update(&mut self, options) -> Result<(), String>` mutates `self` field by
field, in source order, and returns early (`?`) on the first keybind string
that fails to parse.  The embedding returns the pair of the `Result` and
the post-call state of `self`, so the state left behind by a failed call is
observable, and is split into the three source-order groups (plain
replaces, keybind slots, window settings).
-/

/-- The `cfg_replace!`/plain-field group that `update` applies before any
keybind slot: `css`, `page_size`, `page_load`, `jump_dist` and the four
search settings. -/
def updatePlain (c : Config) (o : Options) : Config :=
  let c := if o.css.isSome then { c with css := o.css } else c
  let c := match o.page_size with
    | some v => { c with page_size := v } | none => c
  let c := match o.page_load with
    | some v => { c with page_load := v } | none => c
  let c := match o.jump_dist with
    | some v => { c with jump_dist := v } | none => c
  let c := if o.placeholder.isSome then
      { c with search := { c.search with placeholder := o.placeholder } }
    else c
  let c := if o.search_restrict.isSome then
      { c with search := { c.search with restrict := o.search_restrict } }
    else c
  let c := if o.search_min_length.isSome then
      { c with search := { c.search with min_length := o.search_min_length } }
    else c
  let c := if o.search_max_length.isSome then
      { c with search := { c.search with max_length := o.search_max_length } }
    else c
  c

/-- One `cfg_keybind!` invocation plus the `?` propagation around it: if a
previous slot already failed, nothing further runs; otherwise, when the
optional list of raw keybind strings is present, parse every string
(first parse error wins, `List.mapM` over `Except` models the `for` loop
with `?`) and replace the slot on full success. -/
def cfg_keybind (st : Except String Unit × Config)
    (binds : Option (List String))
    (set : Config → List Keybind → Config) : Except String Unit × Config :=
  match st with
  | (.error e, c) => (.error e, c)
  | (.ok _, c) =>
    match binds with
    | none => (.ok (), c)
    | some bind_strings =>
      match bind_strings.mapM Keybind.from_str with
      | .error e => (.error e, c)
      | .ok keybinds => (.ok (), set c keybinds)

/-- The keybind-slot group of `update`, in source order; the source lists
the `key_exec` line twice. -/
def updateKeybinds (c : Config) (o : Options) : Except String Unit × Config :=
  let st := (Except.ok (), c)
  let st := cfg_keybind st o.key_exec
    (fun c ks => { c with keybinds := { c.keybinds with exec := ks } })
  let st := cfg_keybind st o.key_exec
    (fun c ks => { c with keybinds := { c.keybinds with exec := ks } })
  let st := cfg_keybind st o.key_exit
    (fun c ks => { c with keybinds := { c.keybinds with exit := ks } })
  let st := cfg_keybind st o.key_move_next
    (fun c ks => { c with keybinds := { c.keybinds with move_next := ks } })
  let st := cfg_keybind st o.key_move_prev
    (fun c ks => { c with keybinds := { c.keybinds with move_prev := ks } })
  let st := cfg_keybind st o.key_open_menu
    (fun c ks => { c with keybinds := { c.keybinds with open_menu := ks } })
  let st := cfg_keybind st o.key_close_menu
    (fun c ks => { c with keybinds := { c.keybinds with close_menu := ks } })
  let st := cfg_keybind st o.key_jump_next
    (fun c ks => { c with keybinds := { c.keybinds with jump_next := ks } })
  let st := cfg_keybind st o.key_jump_prev
    (fun c ks => { c with keybinds := { c.keybinds with jump_prev := ks } })
  st

/-- The window-settings group that `update` applies after the keybind
slots. -/
def updateWindow (c : Config) (o : Options) : Config :=
  let c := match o.title with
    | some v => { c with window := { c.window with title := v } } | none => c
  let c := match o.decorate with
    | some v => { c with window := { c.window with decorate := v } }
    | none => c
  let c := if o.fullscreen.isSome then
      { c with window := { c.window with fullscreen := o.fullscreen } }
    else c
  let c := match o.transparent with
    | some v => { c with window := { c.window with transparent := v } }
    | none => c
  let c := match o.window_width with
    | some v =>
      { c with window :=
          { c.window with size := { c.window.size with width := v } } }
    | none => c
  let c := match o.window_height with
    | some v =>
      { c with window :=
          { c.window with size := { c.window.size with height := v } } }
    | none => c
  c

/-- `Config::update`: plain replaces, then the keybind slots (aborting on
the first unparseable keybind string, which leaves the plain replaces
already applied and skips the window group), then the window settings. -/
def Config.update (c : Config) (o : Options) : Except String Unit × Config :=
  let c1 := updatePlain c o
  match updateKeybinds c1 o with
  | (.error e, c2) => (.error e, c2)
  | (.ok _, c2) => (.ok (), updateWindow c2 o)

/-!
## Cache subsystem (`rmenu/src/cache.rs`)

`read_cache`/`write_cache` touch the filesystem and the system clock; the
embedding makes that environment explicit.  A `CacheEnv` is the view of
the world at the plugin's deterministic artifact location
(`cache_file(name)`): whether an artifact exists there, its metadata and
content, the current `SystemTime::now()`, and the `lastlog` record.
Times are in whole seconds.
-/

/-- The cache failure taxonomy (`CacheError`); the `io::Error` and
`bincode::Error` payloads are dropped. -/
inductive CacheError where
  | NotAvailable
  | InvalidCache
  | CacheExpired
  | FileError
  | EncodingError
  deriving Repr, DecidableEq

/-- Outcome of `fs::read(path)` followed by `bincode::deserialize`:
either the decoded entries, a filesystem failure, or a decode failure.
(`bincode` is an external crate; its decoding is modelled by the decoded
value it would produce.) -/
inductive ArtifactContent where
  | entries (es : List Entry)
  | fileErr
  | encErr
  deriving Repr, DecidableEq

/-- The cache artifact at `cache_file(name)`.  `modified = none` models a
failing `path.metadata()?`/`meta.modified()?` call (surfaced as
`FileError`). -/
structure Artifact where
  modified : Option Nat
  content : ArtifactContent
  deriving Repr, DecidableEq

/-- The environment a `read_cache` call observes. -/
structure CacheEnv where
  artifact : Option Artifact
  now : Nat
  lastLogin : Option Nat
  deriving Repr, DecidableEq

/-- `read_cache(name, cfg)`: `NotAvailable` when no artifact exists;
then read the modified timestamp (`FileError` on failure); then apply the
plugin's `CacheSetting` (`NoCache` ⇒ `InvalidCache`; `Never` ⇒ proceed;
`OnLogin` ⇒ `CacheExpired` when `modified <= last` and the last login is
known, permissive otherwise; `AfterSeconds(secs)` ⇒ `CacheExpired` when
`now.duration_since(modified).unwrap_or(0) >= secs`, i.e. saturating
subtraction); finally load and decode the artifact. -/
def read_cache (env : CacheEnv) (cfg : PluginConfig) :
    Except CacheError (List Entry) :=
  match env.artifact with
  | none => .error .NotAvailable
  | some art =>
    match art.modified with
    | none => .error .FileError
    | some modified =>
      let policyFail : Option CacheError :=
        match cfg.cache with
        | .NoCache => some .InvalidCache
        | .Never => none
        | .OnLogin =>
          match env.lastLogin with
          | some last => if modified ≤ last then some .CacheExpired else none
          | none => none
        | .AfterSeconds secs =>
          let diff := env.now - modified
          if diff ≥ secs then some .CacheExpired else none
      match policyFail with
      | some e => .error e
      | none =>
        match art.content with
        | .entries es => .ok es
        | .fileErr => .error .FileError
        | .encErr => .error .EncodingError

/-- Little-endian fixed-width byte encoding of an unsigned integer. -/
def leBytes (k v : Nat) : List Nat :=
  (List.range k).map (fun i => v / 256 ^ i % 256)

/-- Modelled from the spec: the external `bincode` encoding of a string
(a length prefix followed by the character data; "binary-encoded"). -/
def serStr (s : String) : List Nat :=
  leBytes 8 s.length ++ s.data.map Char.toNat

/-- Bincode model of `Option<String>` (a presence byte then the value). -/
def serOptStr : Option String → List Nat
  | none => [0]
  | some s => 1 :: serStr s

/-- Bincode model of `Method` (a variant index then the payload). -/
def serMethod : Method → List Nat
  | .terminal s => leBytes 4 0 ++ serStr s
  | .run s => leBytes 4 1 ++ serStr s
  | .echo s => leBytes 4 2 ++ serStr s

/-- Bincode model of `Action`. -/
def serAction (a : Action) : List Nat :=
  serStr a.name ++ serMethod a.exec ++ serOptStr a.comment

/-- Bincode model of `Entry`. -/
def serEntry (e : Entry) : List Nat :=
  serStr e.name ++ leBytes 8 e.actions.length ++
    (e.actions.map serAction).flatten ++ serOptStr e.comment ++
    serOptStr e.icon ++ serOptStr e.icon_alt

/-- Modelled from the spec: `bincode::serialize(entries)` — the
binary-encoded ordered sequence of `Entry` written by `write_cache`. -/
def bincode_serialize (entries : List Entry) : List Nat :=
  leBytes 8 entries.length ++ (entries.map serEntry).flatten

/-- One observable state of the artifact file at `cache_file(name)`. -/
inductive FileState where
  | absent
  | content (bytes : List Nat)
  deriving Repr, DecidableEq

/-- `write_cache(name, cfg, entries)` as the sequence of observable states
the artifact file passes through, starting from `init`.  Under `NoCache`
nothing is written.  Otherwise the source runs `bincode::serialize`, then
`fs::File::create(path)` — which creates-or-truncates the file in place,
leaving it observably empty — then `write_all(&data)`, which appends the
full serialized buffer.  There is no temporary file or rename. -/
def write_cache_trace (cfg : PluginConfig) (init : FileState)
    (entries : List Entry) : List FileState :=
  match cfg.cache with
  | .NoCache => [init]
  | _ => [init, .content [], .content (bincode_serialize entries)]

/-!
## Helper lemmas
-/

/-- Any string accepted by `usize` parsing reaches the `AfterSeconds`
branch of `CacheSetting::from_str` (none of the literal policy names
contains a digit, so they never collide). -/
theorem cache_setting_of_usize (s : String) (n : Nat)
    (h : parseUsize s = some n) :
    CacheSetting.from_str s = .ok (.AfterSeconds n) := by
  unfold CacheSetting.from_str
  split
  next => exact nomatch h
  next => exact nomatch h
  next => exact nomatch h
  next => exact nomatch h
  next => exact nomatch h
  next => exact nomatch h
  next => exact nomatch h
  next => rw [h]

/-- A string that is neither a literal policy name nor a `usize` is a
cache-setting parse error. -/
theorem cache_setting_of_unrecognized (s : String)
    (h0 : parseUsize s = none)
    (h1 : s ≠ "never") (h2 : s ≠ "false") (h3 : s ≠ "disable")
    (h4 : s ≠ "disabled") (h5 : s ≠ "true") (h6 : s ≠ "login")
    (h7 : s ≠ "onlogin") :
    CacheSetting.from_str s =
      .error ("Invalid Cache Setting: " ++ toString (repr s)) := by
  unfold CacheSetting.from_str
  split <;> simp_all

/-- A concrete entry used by witnesses and counterexamples. -/
def sampleEntry : Entry :=
  ⟨"sample", [⟨"main", .run "cmd", none⟩], none, none, none⟩

/-!
## Claim theorems
-/

/-- C9 counterexample: the claim maps only bare non-negative integer
strings (and the literal policy names) to successes and "every other
string" to a parse error, but `"+42"` — a signed, non-bare form — parses
successfully, because Rust's `usize` parsing accepts an optional leading
`+`. -/
theorem C9_counterexample :
    CacheSetting.from_str "+42" = .ok (.AfterSeconds 42) := rfl

/-- C9 (amended): cache-setting parsing maps `"never"` to `Never`;
`"disabled"`, `"false"`, `"disable"` to `NoCache`; `"true"`, `"login"`,
`"onlogin"` to `OnLogin`; every string accepted by `usize` parsing (an
optional leading `+` followed by decimal digits whose value fits in
`usize`, e.g. `"42"`) to `AfterSeconds` of its value; and every other
string — including `"-1"`, `"abc"`, and a digit string exceeding
`usize::MAX` such as the 20-digit `"99999999999999999999"` — to a parse
error. -/
theorem C9_cache_setting_parse :
    (∀ s n, parseUsize s = some n →
      CacheSetting.from_str s = .ok (.AfterSeconds n)) ∧
    (∀ s, parseUsize s = none → s ≠ "never" → s ≠ "false" → s ≠ "disable" →
      s ≠ "disabled" → s ≠ "true" → s ≠ "login" → s ≠ "onlogin" →
      (CacheSetting.from_str s).isOk = false) ∧
    CacheSetting.from_str "never" = .ok .Never ∧
    CacheSetting.from_str "disabled" = .ok .NoCache ∧
    CacheSetting.from_str "false" = .ok .NoCache ∧
    CacheSetting.from_str "disable" = .ok .NoCache ∧
    CacheSetting.from_str "true" = .ok .OnLogin ∧
    CacheSetting.from_str "login" = .ok .OnLogin ∧
    CacheSetting.from_str "onlogin" = .ok .OnLogin ∧
    CacheSetting.from_str "42" = .ok (.AfterSeconds 42) ∧
    (CacheSetting.from_str "-1").isOk = false ∧
    (CacheSetting.from_str "abc").isOk = false ∧
    (CacheSetting.from_str "99999999999999999999").isOk = false := by
  refine ⟨cache_setting_of_usize, ?_,
    rfl, rfl, rfl, rfl, rfl, rfl, rfl, rfl, rfl, rfl, rfl⟩
  intro s hp h1 h2 h3 h4 h5 h6 h7
  rw [cache_setting_of_unrecognized s hp h1 h2 h3 h4 h5 h6 h7]
  rfl

/-- C9 witness: the amended theorem applied at `"7"` and `"4x2"`. -/
theorem C9_cache_setting_parse_witness :
    CacheSetting.from_str "7" = .ok (.AfterSeconds 7) ∧
    (CacheSetting.from_str "4x2").isOk = false :=
  ⟨C9_cache_setting_parse.1 "7" 7 rfl,
   C9_cache_setting_parse.2.1 "4x2" rfl (by decide) (by decide) (by decide)
     (by decide) (by decide) (by decide) (by decide)⟩

/-- C10: cache-setting parsing is case-sensitive — every string that is
not one of the exact lowercase literals and does not parse as an unsigned
integer (`parseUsize`, which also rejects digit strings over
`usize::MAX`) fails, and in particular `"Never"`, `"True"` and
`"OnLogin"` are parse errors. -/
theorem C10_case_sensitive :
    (∀ s, s ≠ "never" → s ≠ "false" → s ≠ "disable" → s ≠ "disabled" →
      s ≠ "true" → s ≠ "login" → s ≠ "onlogin" → parseUsize s = none →
      (CacheSetting.from_str s).isOk = false) ∧
    (CacheSetting.from_str "Never").isOk = false ∧
    (CacheSetting.from_str "True").isOk = false ∧
    (CacheSetting.from_str "OnLogin").isOk = false := by
  refine ⟨?_, rfl, rfl, rfl⟩
  intro s h1 h2 h3 h4 h5 h6 h7 hp
  rw [cache_setting_of_unrecognized s hp h1 h2 h3 h4 h5 h6 h7]
  rfl

/-- C10 witness: the theorem applied at `"Disabled"`. -/
theorem C10_case_sensitive_witness :
    (CacheSetting.from_str "Disabled").isOk = false :=
  C10_case_sensitive.1 "Disabled" (by decide) (by decide) (by decide)
    (by decide) (by decide) (by decide) (by decide) rfl

/-- C2 counterexample: with a `NoCache` plugin config and no artifact at
the cache location, `read_cache` returns `NotAvailable`, not the
`InvalidCache` the claim demands "regardless of whether a cache artifact
exists". -/
theorem C2_counterexample :
    read_cache ⟨none, 0, none⟩ ⟨["plug"], .NoCache, none, none⟩ =
      .error .NotAvailable ∧
    CacheError.NotAvailable ≠ CacheError.InvalidCache :=
  ⟨rfl, by decide⟩

/-- C2 (amended): when an artifact exists and its modified time is
readable, a `NoCache` plugin config makes `read_cache` return
`InvalidCache`; when no artifact exists the missing-artifact check wins
first and `read_cache` returns `NotAvailable` for every policy. -/
theorem C2_nocache :
    (∀ env cfg a m, env.artifact = some a → a.modified = some m →
      cfg.cache = .NoCache → read_cache env cfg = .error .InvalidCache) ∧
    (∀ env cfg, env.artifact = none →
      read_cache env cfg = .error .NotAvailable) := by
  constructor
  · intro env cfg a m ha hm hc
    simp [read_cache, ha, hm, hc]
  · intro env cfg ha
    simp [read_cache, ha]

/-- C2 witness: the amended theorem applied at concrete environments. -/
theorem C2_nocache_witness :
    read_cache ⟨some ⟨some 3, .entries []⟩, 9, none⟩
      ⟨["plug"], .NoCache, none, none⟩ = .error .InvalidCache ∧
    read_cache ⟨none, 9, none⟩ ⟨["plug"], .Never, none, none⟩ =
      .error .NotAvailable :=
  ⟨C2_nocache.1 _ _ _ 3 rfl rfl rfl, C2_nocache.2 _ _ rfl⟩

/-- C3 counterexample: with `AfterSeconds 0` and a clock skewed so that
`now < modified` (now 5, modified 10), the saturating elapsed time is 0,
`0 ≥ 0` holds, and the cache IS treated as expired — the claim says a
skewed cache is never treated as expired for every `n` including 0. -/
theorem C3_counterexample :
    read_cache ⟨some ⟨some 10, .entries [sampleEntry]⟩, 5, none⟩
      ⟨["plug"], .AfterSeconds 0, none, none⟩ = .error .CacheExpired ∧
    (5 : Nat) < 10 :=
  ⟨rfl, by decide⟩

/-- C3 (amended): with `AfterSeconds n` and a readable artifact,
`read_cache` returns `CacheExpired` exactly when the saturating difference
`now − modified` (zero under clock skew) is at least `n`; so under skew the
cache still expires exactly when `n = 0`, and no error is raised for the
skew itself. -/
theorem C3_after_seconds :
    ∀ env cfg a m n, env.artifact = some a → a.modified = some m →
      cfg.cache = .AfterSeconds n →
      ((read_cache env cfg = .error .CacheExpired) ↔ env.now - m ≥ n) := by
  intro env cfg a m n ha hm hc
  by_cases hd : env.now - m ≥ n
  · simp [read_cache, ha, hm, hc, hd]
  · cases hcont : a.content <;> simp [read_cache, ha, hm, hc, hd, hcont]

/-- C3 witness: the amended theorem applied at a 15-second-old artifact
under `AfterSeconds 10`. -/
theorem C3_after_seconds_witness :
    read_cache ⟨some ⟨some 0, .entries []⟩, 15, none⟩
      ⟨["plug"], .AfterSeconds 10, none, none⟩ = .error .CacheExpired :=
  (C3_after_seconds _ _ _ 0 10 rfl rfl rfl).mpr (by decide)

/-- C4 counterexample: under `OnLogin`, a last login time EQUAL to the
artifact's modified time (both 100) already expires the cache (the source
tests `modified <= last`), while the claim requires expiry only for a
strictly later login. -/
theorem C4_counterexample :
    read_cache ⟨some ⟨some 100, .entries [sampleEntry]⟩, 200, some 100⟩
      ⟨["plug"], .OnLogin, none, none⟩ = .error .CacheExpired :=
  rfl

/-- C4 (amended): under `OnLogin` with a readable artifact, `read_cache`
returns `CacheExpired` exactly when the last login time is known and at
least the modified time (equality already expires); when the last login
cannot be determined the cache is treated as not expired and the entries
are loaded. -/
theorem C4_on_login :
    ∀ env cfg a m, env.artifact = some a → a.modified = some m →
      cfg.cache = .OnLogin →
      (((read_cache env cfg = .error .CacheExpired) ↔
          ∃ last, env.lastLogin = some last ∧ m ≤ last) ∧
        (env.lastLogin = none → ∀ es, a.content = .entries es →
          read_cache env cfg = .ok es)) := by
  intro env cfg a m ha hm hc
  constructor
  · cases hll : env.lastLogin with
    | none =>
      cases hcont : a.content <;>
        simp [read_cache, ha, hm, hc, hll, hcont]
    | some last =>
      by_cases hle : m ≤ last
      · simp [read_cache, ha, hm, hc, hll, hle]
      · cases hcont : a.content <;>
          simp [read_cache, ha, hm, hc, hll, hle, hcont]
  · intro hll es hcont
    simp [read_cache, ha, hm, hc, hll, hcont]

/-- C4 witness: the amended theorem applied at a login after the modified
time and at an undeterminable login time. -/
theorem C4_on_login_witness :
    read_cache ⟨some ⟨some 5, .entries []⟩, 9, some 7⟩
      ⟨["plug"], .OnLogin, none, none⟩ = .error .CacheExpired ∧
    read_cache ⟨some ⟨some 5, .entries [sampleEntry]⟩, 9, none⟩
      ⟨["plug"], .OnLogin, none, none⟩ = .ok [sampleEntry] :=
  ⟨((C4_on_login _ _ _ 5 rfl rfl rfl).1).mpr ⟨7, rfl, by decide⟩,
   ((C4_on_login _ _ _ 5 rfl rfl rfl).2) rfl [sampleEntry] rfl⟩

/-- C8 counterexample: a non-`NoCache` write passes the artifact through
the observably empty truncated state (`File::create` then `write_all`),
which differs from both the prior content and the final serialized
content — a concurrent reader can observe a partially written artifact. -/
theorem C8_counterexample :
    FileState.content [] ∈
      write_cache_trace ⟨["plug"], .Never, none, none⟩
        (.content [7]) [sampleEntry] ∧
    FileState.content [] ≠ .content [7] ∧
    FileState.content [] ≠ .content (bincode_serialize [sampleEntry]) := by
  refine ⟨?_, by decide, ?_⟩
  · simp [write_cache_trace]
  · decide

/-- C8 (amended): `write_cache` is a no-op under `NoCache`; otherwise it
serializes the full entry sequence and overwrites the artifact in place by
truncate-then-write, so the file passes through an observable truncated
state before holding the full serialized bytes — the overwrite is not
atomic from a reader's perspective. -/
theorem C8_write_trace :
    (∀ cfg init es, cfg.cache = .NoCache →
      write_cache_trace cfg init es = [init]) ∧
    (∀ cfg init es, cfg.cache ≠ .NoCache →
      write_cache_trace cfg init es =
        [init, .content [], .content (bincode_serialize es)] ∧
      FileState.content [] ∈ write_cache_trace cfg init es) := by
  constructor
  · intro cfg init es hc
    simp [write_cache_trace, hc]
  · intro cfg init es hc
    cases hcc : cfg.cache <;> simp_all [write_cache_trace]

/-- C8 witness: the amended theorem applied at a concrete `OnLogin`
plugin config. -/
theorem C8_write_trace_witness :
    write_cache_trace ⟨["plug"], .OnLogin, none, none⟩ .absent [] =
      [.absent, .content [], .content (bincode_serialize [])] ∧
    FileState.content [] ∈
      write_cache_trace ⟨["plug"], .OnLogin, none, none⟩ .absent [] :=
  C8_write_trace.2 _ _ _ (by decide)

/-- C6: updating any base `Config` (in particular the default one, whose
`page_size` is 50) with an `Options` carrying only `page_size = some 75`
succeeds, sets `page_size` to 75, and leaves every other field at its
pre-overlay value. -/
theorem C6_page_size_overlay :
    (∀ c : Config,
      Config.update c { Options.empty with page_size := some 75 } =
        (.ok (), { c with page_size := 75 })) ∧
    Config.default.page_size = 50 :=
  ⟨fun _ => rfl, rfl⟩

/-- C1 counterexample: an `Options` carrying `page_size = some 75` and the
unparseable keybind string `"!"` in `key_exec` makes `update` fail, yet
the post-call `Config` has `page_size = 75` (it was 50 before the call) —
the failed call did change a plain-replace field. -/
theorem C1_counterexample :
    (Config.update Config.default
      { Options.empty with page_size := some 75,
                           key_exec := some ["!"] }).1 =
      .error "invalid key/modifier: !" ∧
    (Config.update Config.default
      { Options.empty with page_size := some 75,
                           key_exec := some ["!"] }).2.page_size = 75 ∧
    Config.default.page_size = 50 :=
  ⟨rfl, rfl, rfl⟩

/-- The plain-replace group in closed form: each optional field is
overlaid when present, every other field is untouched. -/
theorem updatePlain_eq (c : Config) (o : Options) :
    updatePlain c o = { c with
      css := if o.css.isSome then o.css else c.css,
      page_size := o.page_size.getD c.page_size,
      page_load := o.page_load.getD c.page_load,
      jump_dist := o.jump_dist.getD c.jump_dist,
      search := { c.search with
        placeholder :=
          if o.placeholder.isSome then o.placeholder
          else c.search.placeholder,
        restrict :=
          if o.search_restrict.isSome then o.search_restrict
          else c.search.restrict,
        min_length :=
          if o.search_min_length.isSome then o.search_min_length
          else c.search.min_length,
        max_length :=
          if o.search_max_length.isSome then o.search_max_length
          else c.search.max_length } } := by
  unfold updatePlain
  cases o.css <;> cases o.page_size <;> cases o.page_load <;>
    cases o.jump_dist <;> cases o.placeholder <;>
    cases o.search_restrict <;> cases o.search_min_length <;>
    cases o.search_max_length <;> rfl

/-- One `cfg_keybind` step touches only the `keybinds` field: overriding
`keybinds` afterwards erases any difference from the state `c` the chain
started from. -/
theorem cfg_keybind_sek (c : Config) (st : Except String Unit × Config)
    (binds : Option (List String)) (set : Config → List Keybind → Config)
    (hst : ∀ kb, { st.2 with keybinds := kb } = { c with keybinds := kb })
    (hset : ∀ cc ks kb,
      { (set cc ks) with keybinds := kb } = { cc with keybinds := kb }) :
    ∀ kb, { (cfg_keybind st binds set).2 with keybinds := kb } =
      { c with keybinds := kb } := by
  obtain ⟨r, c0⟩ := st
  cases r with
  | error e => exact hst
  | ok u =>
    cases binds with
    | none => exact hst
    | some bs =>
      cases hm : bs.mapM Keybind.from_str with
      | error e =>
        intro kb
        simp only [cfg_keybind, hm]
        exact hst kb
      | ok ks =>
        intro kb
        simp only [cfg_keybind, hm]
        exact (hset c0 ks kb).trans (hst kb)

/-- The whole keybind group touches only the `keybinds` field. -/
theorem updateKeybinds_sek (c : Config) (o : Options) :
    ∀ kb, { (updateKeybinds c o).2 with keybinds := kb } =
      { c with keybinds := kb } := by
  refine cfg_keybind_sek c _ _ _ ?_ (fun cc ks kb => rfl)
  refine cfg_keybind_sek c _ _ _ ?_ (fun cc ks kb => rfl)
  refine cfg_keybind_sek c _ _ _ ?_ (fun cc ks kb => rfl)
  refine cfg_keybind_sek c _ _ _ ?_ (fun cc ks kb => rfl)
  refine cfg_keybind_sek c _ _ _ ?_ (fun cc ks kb => rfl)
  refine cfg_keybind_sek c _ _ _ ?_ (fun cc ks kb => rfl)
  refine cfg_keybind_sek c _ _ _ ?_ (fun cc ks kb => rfl)
  refine cfg_keybind_sek c _ _ _ ?_ (fun cc ks kb => rfl)
  refine cfg_keybind_sek c _ _ _ ?_ (fun cc ks kb => rfl)
  exact fun kb => rfl

/-- C1 (amended): a failed `update` is not all-or-nothing.  First part:
whenever `update` returns an error, the post-call configuration has every
plain-replace field applied before the keybind group (css, page size,
page load, jump distance, the four search settings) already overlaid per
its option, while every other non-keybind field — the window settings
included — keeps its pre-call value.  Second part: a keybind slot before
the failing one that parsed successfully is already replaced: a fully
parseable `key_exec` followed by a `key_exit` whose first string fails
leaves `exec` replaced with the parsed keybinds and everything else,
the failing `exit` slot and the later slots included, untouched. -/
theorem C1_update_partial_on_failure :
    (∀ (c : Config) (o : Options) (e : String) (c' : Config),
      Config.update c o = (.error e, c') →
      c' = { c with
        css := if o.css.isSome then o.css else c.css,
        page_size := o.page_size.getD c.page_size,
        page_load := o.page_load.getD c.page_load,
        jump_dist := o.jump_dist.getD c.jump_dist,
        search := { c.search with
          placeholder :=
            if o.placeholder.isSome then o.placeholder
            else c.search.placeholder,
          restrict :=
            if o.search_restrict.isSome then o.search_restrict
            else c.search.restrict,
          min_length :=
            if o.search_min_length.isSome then o.search_min_length
            else c.search.min_length,
          max_length :=
            if o.search_max_length.isSome then o.search_max_length
            else c.search.max_length },
        keybinds := c'.keybinds }) ∧
    (∀ (c : Config) (bs1 : List String) (ks1 : List Keybind) (b : String)
        (bs2 : List String) (e : String),
      bs1.mapM Keybind.from_str = .ok ks1 →
      Keybind.from_str b = .error e →
      Config.update c { Options.empty with key_exec := some bs1,
                                           key_exit := some (b :: bs2) } =
        (.error e,
         { c with keybinds := { c.keybinds with exec := ks1 } })) := by
  constructor
  · intro c o e c' h
    have h' : (match updateKeybinds (updatePlain c o) o with
        | (Except.error er, c2) => ((Except.error er : Except String Unit), c2)
        | (Except.ok _, c2) => (Except.ok (), updateWindow c2 o)) =
        ((Except.error e : Except String Unit), c') := h
    rcases hk : updateKeybinds (updatePlain c o) o with ⟨r, c2⟩
    rw [hk] at h'
    cases r with
    | ok u => simp at h'
    | error e2 =>
      simp only [Prod.mk.injEq, Except.error.injEq] at h'
      obtain ⟨h1, h2⟩ := h'
      subst h2
      have h3 := updateKeybinds_sek (updatePlain c o) o c2.keybinds
      have hsnd : (updateKeybinds (updatePlain c o) o).2 = c2 := by rw [hk]
      rw [hsnd] at h3
      have h4 : c2 = { updatePlain c o with keybinds := c2.keybinds } := h3
      rw [updatePlain_eq] at h4
      exact h4
  · intro c bs1 ks1 b bs2 e h1 h2
    have h1l : List.mapM.loop Keybind.from_str bs1 [] = .ok ks1 := h1
    have hm2 : ∀ acc : List Keybind,
        List.mapM.loop Keybind.from_str (b :: bs2) acc = .error e := by
      intro acc
      unfold List.mapM.loop
      rw [h2]
      rfl
    simp [Config.update, updatePlain, updateKeybinds, updateWindow,
          cfg_keybind, Options.empty, List.mapM, h1l, hm2]

/-- C1 witness: the amended theorem applied at the default config — once
with a failing first slot after a `page_size` overlay, once with a valid
`key_exec` (`"enter"`) followed by a failing `key_exit` (`"!"`). -/
theorem C1_update_partial_on_failure_witness :
    (Config.update Config.default
        { Options.empty with page_size := some 75,
                             key_exec := some ["!"] }).2 =
      { Config.default with
        page_size := 75,
        keybinds := (Config.update Config.default
          { Options.empty with page_size := some 75,
                               key_exec := some ["!"] }).2.keybinds } ∧
    Config.update Config.default
        { Options.empty with key_exec := some ["enter"],
                             key_exit := some ["!"] } =
      (.error "invalid key/modifier: !",
       { Config.default with keybinds :=
          { Config.default.keybinds with exec := [Keybind.new .Enter] } }) := by
  constructor
  · exact C1_update_partial_on_failure.1 Config.default
      { Options.empty with page_size := some 75, key_exec := some ["!"] }
      "invalid key/modifier: !" _ rfl
  · exact C1_update_partial_on_failure.2 Config.default ["enter"]
      [Keybind.new .Enter] "!" [] "invalid key/modifier: !" rfl rfl

/-- A token resolves to a key code: the token-classification loop first
tries `Code::from_str` on the Pascal-cased token. -/
def resolvesKey (tok : String) : Bool :=
  (Code.from_str (pascalCase tok)).isSome

/-- A token resolves at all: as a key code or, failing that, as a
modifier. -/
def resolvesTok (tok : String) : Bool :=
  resolvesKey tok || (mod_from_str tok).isSome

/-- The classification loop succeeds exactly when every token resolves. -/
theorem classify_ok_iff_resolves :
    ∀ ts : List String,
      (∃ p, classify ts = .ok p) ↔ (∀ t ∈ ts, resolvesTok t = true) := by
  intro ts
  induction ts with
  | nil => simp [classify]
  | cons t rest ih =>
    cases hk : Code.from_str (pascalCase t) with
    | some k =>
      have hres : resolvesTok t = true := by
        simp [resolvesTok, resolvesKey, hk]
      constructor
      · rintro ⟨p, hp⟩
        simp only [classify, hk] at hp
        intro u hu
        rcases List.mem_cons.mp hu with h | h
        · exact h ▸ hres
        · rcases hcl : classify rest with e | q
          · rw [hcl] at hp; exact nomatch hp
          · exact (ih.mp ⟨q, hcl⟩) u h
      · intro hall
        obtain ⟨⟨ms, ks⟩, hq⟩ :=
          ih.mpr (fun u hu => hall u (List.mem_cons_of_mem t hu))
        exact ⟨(ms, k :: ks), by simp only [classify, hk, hq]⟩
    | none =>
      cases hm : mod_from_str t with
      | some m =>
        have hres : resolvesTok t = true := by
          simp [resolvesTok, resolvesKey, hk, hm]
        constructor
        · rintro ⟨p, hp⟩
          simp only [classify, hk, hm] at hp
          intro u hu
          rcases List.mem_cons.mp hu with h | h
          · exact h ▸ hres
          · rcases hcl : classify rest with e | q
            · rw [hcl] at hp; exact nomatch hp
            · exact (ih.mp ⟨q, hcl⟩) u h
        · intro hall
          obtain ⟨⟨ms, ks⟩, hq⟩ :=
            ih.mpr (fun u hu => hall u (List.mem_cons_of_mem t hu))
          exact ⟨(m :: ms, ks), by simp only [classify, hk, hm, hq]⟩
      | none =>
        constructor
        · rintro ⟨p, hp⟩
          simp only [classify, hk, hm] at hp
          exact nomatch hp
        · intro hall
          have := hall t (List.mem_cons_self t rest)
          simp [resolvesTok, resolvesKey, hk, hm] at this

/-- A successful classification's key list is the tokens' key codes in
order. -/
theorem classify_keys :
    ∀ (ts : List String) (ms : List Modifiers) (ks : List Code),
      classify ts = .ok (ms, ks) →
      ks = ts.filterMap (fun t => Code.from_str (pascalCase t)) := by
  intro ts
  induction ts with
  | nil =>
    intro ms ks h
    simp only [classify] at h
    cases h
    rfl
  | cons t rest ih =>
    intro ms ks h
    cases hk : Code.from_str (pascalCase t) with
    | some k =>
      simp only [classify, hk] at h
      rcases hcl : classify rest with e | ⟨ms', ks'⟩ <;> rw [hcl] at h
      · exact nomatch h
      · cases h
        simp only [List.filterMap_cons, hk]
        rw [ih _ _ hcl]
    | none =>
      cases hm : mod_from_str t with
      | some m =>
        simp only [classify, hk, hm] at h
        rcases hcl : classify rest with e | ⟨ms', ks'⟩ <;> rw [hcl] at h
        · exact nomatch h
        · cases h
          simp only [List.filterMap_cons, hk]
          exact ih _ _ hcl
      | none =>
        simp only [classify, hk, hm] at h
        exact nomatch h

/-- The number of key codes among the tokens equals the count of
key-resolving tokens. -/
theorem length_keys_eq_countP :
    ∀ ts : List String,
      (ts.filterMap (fun t => Code.from_str (pascalCase t))).length =
        ts.countP resolvesKey := by
  intro ts
  induction ts with
  | nil => rfl
  | cons t rest ih =>
    cases hk : Code.from_str (pascalCase t) with
    | some k =>
      simp [List.filterMap_cons, List.countP_cons, hk, ih, resolvesKey]
    | none =>
      simp [List.filterMap_cons, List.countP_cons, hk, ih, resolvesKey]

/-- C5: keybind parsing splits on `+`, resolves each token (first as a
Pascal-cased key code, else case-insensitively as a modifier), accumulates
modifiers by set union, and succeeds exactly when every token resolves and
exactly one token resolves to a key code; `"ctrl+alt+a"` parses to
modifiers `{Ctrl, Alt}` with key `A`, while `"a+b"`, `""` and `"shift"`
are parse errors. -/
theorem C5_keybind_parse :
    (∀ s, (Keybind.from_str s).isOk = true ↔
      ((∀ t ∈ splitPlus s, resolvesTok t = true) ∧
        (splitPlus s).countP resolvesKey = 1)) ∧
    Keybind.from_str "ctrl+alt+a" =
      .ok ⟨⟨true, true, false, false⟩, .A⟩ ∧
    (Keybind.from_str "a+b").isOk = false ∧
    (Keybind.from_str "").isOk = false ∧
    (Keybind.from_str "shift").isOk = false := by
  refine ⟨?_, rfl, rfl, rfl, rfl⟩
  intro s
  constructor
  · intro hok
    rcases hcl : classify (splitPlus s) with e | ⟨ms, ks⟩
    · unfold Keybind.from_str at hok
      rw [hcl] at hok
      exact nomatch hok
    · have hres := (classify_ok_iff_resolves (splitPlus s)).mp ⟨_, hcl⟩
      have hks := classify_keys _ _ _ hcl
      unfold Keybind.from_str at hok
      rw [hcl] at hok
      match ks, hks, hok with
      | [], hks, hok => exact nomatch hok
      | [k], hks, hok =>
        refine ⟨hres, ?_⟩
        rw [← length_keys_eq_countP, ← hks]
        rfl
      | k1 :: k2 :: kr, hks, hok => exact nomatch hok
  · rintro ⟨hres, hcount⟩
    obtain ⟨⟨ms, ks⟩, hcl⟩ :=
      (classify_ok_iff_resolves (splitPlus s)).mpr hres
    have hks := classify_keys _ _ _ hcl
    have hlen : ks.length = 1 := by
      rw [hks, length_keys_eq_countP]
      exact hcount
    obtain ⟨k, hk⟩ := List.length_eq_one.mp hlen
    unfold Keybind.from_str
    rw [hcl, hk]
    rfl

theorem decodeMethod_encode (m : Method) :
    decodeMethod (encodeMethod m) = some m := by
  cases m <;> rfl

theorem decodeAction_encode (a : Action) :
    decodeAction (encodeAction a) = some a := by
  obtain ⟨nm, ex, cm⟩ := a
  cases ex <;> cases cm <;> rfl

theorem mapM_decodeAction_map (l : List Action) :
    (l.map encodeAction).mapM decodeAction = some l := by
  induction l with
  | nil => rfl
  | cons a t ih =>
    rw [List.map_cons, List.mapM_cons, decodeAction_encode, ih]
    rfl

theorem decodeEntry_encode (e : Entry) :
    decodeEntry (encodeEntry e) = some e := by
  obtain ⟨nm, acts, cm, ic, ia⟩ := e
  have h := mapM_decodeAction_map acts
  cases cm <;> cases ic <;> cases ia <;>
    · show ((acts.map encodeAction).mapM decodeAction).bind _ = _
      rw [h]
      rfl

theorem decOptStr_map (v : Option String) :
    decOptStr (v.map J.s) = some v := by
  cases v <;> rfl

theorem decOptNat_map (v : Option Nat) :
    decOptNat (v.map J.n) = some v := by
  cases v <;> rfl

theorem decOptRat_map (v : Option Rat) :
    decOptRat (v.map J.q) = some v := by
  cases v <;> rfl

theorem decOptBool_map (v : Option Bool) :
    decOptBool (v.map J.b) = some v := by
  cases v <;> rfl

theorem mapM_asStr_map (l : List String) :
    (l.map J.s).mapM asStr = some l := by
  induction l with
  | nil => rfl
  | cons a t ih =>
    rw [List.map_cons, List.mapM_cons, ih]
    rfl

theorem decOptStrList_map (v : Option (List String)) :
    decOptStrList (v.map strArr) = some v := by
  cases v with
  | none => rfl
  | some l =>
    show ((l.map J.s).mapM asStr).map some = some (some l)
    rw [mapM_asStr_map]
    rfl

/-- The field names of the sparse `Options` wire object, in order. -/
theorem optionsFields_names (o : Options) :
    (optionsFields o).map Prod.fst =
      ["theme", "placeholder", "search_restrict", "search_min_length",
       "search_max_length", "key_exec", "key_exit", "key_move_next",
       "key_move_prev", "key_open_menu", "key_close_menu", "key_jump_next",
       "key_jump_prev", "title", "decorate", "fullscreen", "transparent",
       "window_width", "window_height", "css", "page_size", "page_load",
       "jump_dist"] := rfl

theorem optionsFields_nodup (o : Options) :
    ((optionsFields o).map Prod.fst).Nodup := by
  rw [optionsFields_names]
  decide

theorem decodeOptions_encode (o : Options) :
    decodeOptions (encodeOptions o) = some o := by
  have hlu : ∀ nm : String, (nm == "type") = false →
      ((("type", J.s "options") :: sparse (optionsFields o)).lookup nm) =
        ((optionsFields o).lookup nm).bind id := by
    intro nm h
    show (match nm == "type" with
          | true => some (J.s "options")
          | false => (sparse (optionsFields o)).lookup nm) = _
    rw [h]
    exact sparse_lookup nm _ (optionsFields_nodup o)
  have t01 : (("type", J.s "options") :: sparse (optionsFields o)).lookup
      "theme" = o.theme.map J.s := by rw [hlu "theme" rfl]; rfl
  have t02 : (("type", J.s "options") :: sparse (optionsFields o)).lookup
      "placeholder" = o.placeholder.map J.s := by rw [hlu "placeholder" rfl]; rfl
  have t03 : (("type", J.s "options") :: sparse (optionsFields o)).lookup
      "search_restrict" = o.search_restrict.map J.s := by
    rw [hlu "search_restrict" rfl]; rfl
  have t04 : (("type", J.s "options") :: sparse (optionsFields o)).lookup
      "search_min_length" = o.search_min_length.map J.n := by
    rw [hlu "search_min_length" rfl]; rfl
  have t05 : (("type", J.s "options") :: sparse (optionsFields o)).lookup
      "search_max_length" = o.search_max_length.map J.n := by
    rw [hlu "search_max_length" rfl]; rfl
  have t06 : (("type", J.s "options") :: sparse (optionsFields o)).lookup
      "key_exec" = o.key_exec.map strArr := by rw [hlu "key_exec" rfl]; rfl
  have t07 : (("type", J.s "options") :: sparse (optionsFields o)).lookup
      "key_exit" = o.key_exit.map strArr := by rw [hlu "key_exit" rfl]; rfl
  have t08 : (("type", J.s "options") :: sparse (optionsFields o)).lookup
      "key_move_next" = o.key_move_next.map strArr := by
    rw [hlu "key_move_next" rfl]; rfl
  have t09 : (("type", J.s "options") :: sparse (optionsFields o)).lookup
      "key_move_prev" = o.key_move_prev.map strArr := by
    rw [hlu "key_move_prev" rfl]; rfl
  have t10 : (("type", J.s "options") :: sparse (optionsFields o)).lookup
      "key_open_menu" = o.key_open_menu.map strArr := by
    rw [hlu "key_open_menu" rfl]; rfl
  have t11 : (("type", J.s "options") :: sparse (optionsFields o)).lookup
      "key_close_menu" = o.key_close_menu.map strArr := by
    rw [hlu "key_close_menu" rfl]; rfl
  have t12 : (("type", J.s "options") :: sparse (optionsFields o)).lookup
      "key_jump_next" = o.key_jump_next.map strArr := by
    rw [hlu "key_jump_next" rfl]; rfl
  have t13 : (("type", J.s "options") :: sparse (optionsFields o)).lookup
      "key_jump_prev" = o.key_jump_prev.map strArr := by
    rw [hlu "key_jump_prev" rfl]; rfl
  have t14 : (("type", J.s "options") :: sparse (optionsFields o)).lookup
      "title" = o.title.map J.s := by rw [hlu "title" rfl]; rfl
  have t15 : (("type", J.s "options") :: sparse (optionsFields o)).lookup
      "decorate" = o.decorate.map J.b := by rw [hlu "decorate" rfl]; rfl
  have t16 : (("type", J.s "options") :: sparse (optionsFields o)).lookup
      "fullscreen" = o.fullscreen.map J.b := by rw [hlu "fullscreen" rfl]; rfl
  have t17 : (("type", J.s "options") :: sparse (optionsFields o)).lookup
      "transparent" = o.transparent.map J.b := by rw [hlu "transparent" rfl]; rfl
  have t18 : (("type", J.s "options") :: sparse (optionsFields o)).lookup
      "window_width" = o.window_width.map J.q := by
    rw [hlu "window_width" rfl]; rfl
  have t19 : (("type", J.s "options") :: sparse (optionsFields o)).lookup
      "window_height" = o.window_height.map J.q := by
    rw [hlu "window_height" rfl]; rfl
  have t20 : (("type", J.s "options") :: sparse (optionsFields o)).lookup
      "css" = o.css.map J.s := by rw [hlu "css" rfl]; rfl
  have t21 : (("type", J.s "options") :: sparse (optionsFields o)).lookup
      "page_size" = o.page_size.map J.n := by rw [hlu "page_size" rfl]; rfl
  have t22 : (("type", J.s "options") :: sparse (optionsFields o)).lookup
      "page_load" = o.page_load.map J.q := by rw [hlu "page_load" rfl]; rfl
  have t23 : (("type", J.s "options") :: sparse (optionsFields o)).lookup
      "jump_dist" = o.jump_dist.map J.n := by rw [hlu "jump_dist" rfl]; rfl
  show (decodeOptionsA (("type", J.s "options") :: sparse (optionsFields o))
      Options.empty).bind
      (decodeOptionsB (("type", J.s "options") :: sparse (optionsFields o)))
      = some o
  simp only [decodeOptionsA, decodeOptionsB, t01, t02, t03, t04, t05, t06,
    t07, t08, t09, t10, t11, t12, t13, t14, t15, t16, t17, t18, t19, t20,
    t21, t22, t23, decOptStr_map, decOptNat_map, decOptRat_map,
    decOptBool_map, decOptStrList_map]
  rfl

/-- C7: encoding then decoding any `Entry`, `Options`, or `Message` value
yields an equal value — populated fields survive unchanged and absent
optional fields remain absent (they never become present with a default
value, since an absent field is skipped on the wire and a missing field
decodes back to absent). -/
theorem C7_roundtrip :
    (∀ e : Entry, decodeEntry (encodeEntry e) = some e) ∧
    (∀ o : Options, decodeOptions (encodeOptions o) = some o) ∧
    (∀ m : Message, decodeMessage (encodeMessage m) = some m) := by
  refine ⟨decodeEntry_encode, decodeOptions_encode, ?_⟩
  intro m
  cases m with
  | entry e =>
    show (decodeEntry (encodeEntry e)).map Message.entry = _
    rw [decodeEntry_encode]
    rfl
  | options o =>
    show (decodeOptions (encodeOptions o)).map Message.options = _
    rw [decodeOptions_encode]
    rfl

end Rmenu
